import Mathlib

/-!
Shallow embedding of the `frost` two-party threshold Ed25519 protocol
(`src/frost/src/{dkg,sign}/{client,server}.rs`).

Modelling choices:
* All protocol points live in the prime-order subgroup `G` of the Edwards
  form of Curve25519, a cyclic group of prime order `ℓ` generated by the
  base point `B`.  We identify `G` with `ZMod ℓ` via `n·B ↦ n`:
  `EdwardsPoint::mul_base s` becomes `s`, point addition becomes addition
  in `ZMod ℓ`, and point-by-scalar multiplication becomes multiplication.
* `CompressedEdwardsY` is modelled as `Option Point`: `some P` is the
  canonical 32-byte encoding of `P` (compression is injective on `G`),
  `none` stands for a byte string that fails to decompress.
* The Rust operations are generic over a 64-byte digest `CtxDigest`; the
  embedding is likewise parameterised by `H : List ℕ → Scalar`, modelling
  `Scalar::from_hash` applied to the concatenation of all `update` calls.
  Compressed points are fed to the digest through `cpBytes`.
* `OsRng` samples become explicit scalar arguments of the `start` steps.
* A Rust `.unwrap()` on a failed decompression is a panic; functions that
  can panic return `Option (Except _ _)`, with `none` for the panic.
-/

/-- Order of the prime-order subgroup of Curve25519 (the Ed25519 `ℓ`). -/
def ell : ℕ := 2 ^ 252 + 27742317777372353535851937790883648493

/-- A scalar, an element of `ℤ/ℓℤ` (`curve25519_dalek::scalar::Scalar`). -/
abbrev Scalar : Type := ZMod ell

/-- A point of the prime-order subgroup, identified with its discrete
logarithm base `B` (`curve25519_dalek::edwards::EdwardsPoint`). -/
abbrev Point : Type := ZMod ell

/-- `EdwardsPoint::mul_base`: `s ↦ s·B`, the identification map. -/
def mul_base (s : Scalar) : Point := s

/-- `CompressedEdwardsY`: `some P` is the canonical encoding of `P`,
`none` an invalid byte string. -/
abbrev CompressedPoint : Type := Option Point

/-- `EdwardsPoint::compress`. -/
def compress (P : Point) : CompressedPoint := some P

/-- `CompressedEdwardsY::decompress`. -/
def decompress (cp : CompressedPoint) : Option Point := cp

/-- The byte string backing a compressed point (`as_bytes`), as fed to the
digest; an abstract injective encoding. -/
def cpBytes : CompressedPoint → List ℕ
  | none => [0]
  | some p => [1, p.val]

/-- The bytes of the literal `b"client"`. -/
def tagClient : List ℕ := [99, 108, 105, 101, 110, 116]

/-- The bytes of the literal `b"server"`. -/
def tagServer : List ℕ := [115, 101, 114, 118, 101, 114]

/-- `frost::dkg::DkgError`. -/
inductive DkgError : Type
  | Decompression
  | ProofOfKnowledge
  | ShareVerification
  deriving DecidableEq, Repr

/-- `frost::sign::SignError`. -/
inductive SignError : Type
  | Decompression
  | PartialSignatureVerification
  deriving DecidableEq, Repr

/-- `frost::dkg::client::DkgClientRound1`. -/
structure DkgClientRound1 : Type where
  C0 : CompressedPoint
  C1 : CompressedPoint
  R : CompressedPoint
  mu : Scalar
  deriving DecidableEq, Repr

/-- `frost::dkg::client::DkgClientRound2`. -/
structure DkgClientRound2 : Type where
  c_server : Scalar
  deriving DecidableEq, Repr

/-- `frost::dkg::server::DkgServerRound1`. -/
structure DkgServerRound1 : Type where
  S0 : CompressedPoint
  S1 : CompressedPoint
  R : CompressedPoint
  mu : Scalar
  deriving DecidableEq, Repr

/-- `frost::dkg::server::DkgServerRound2`. -/
structure DkgServerRound2 : Type where
  s_client : Scalar
  deriving DecidableEq, Repr

namespace ClientDkg

/-- `ClientDkg::start_first_round::<CtxDigest>`; the `OsRng` draws
`c0, c1, k` are passed in explicitly. -/
def start_first_round (H : List ℕ → Scalar) (c0 c1 k : Scalar) :
    Scalar × Scalar × Point × Point × DkgClientRound1 :=
  let C0 := mul_base c0
  let C1 := mul_base c1
  let R := mul_base k
  let c := H (tagClient ++ cpBytes (compress C0) ++ cpBytes (compress R))
  let mu := k + c0 * c
  (c0, c1, C0, C1,
    { C0 := compress C0, C1 := compress C1, R := compress R, mu := mu })

/-- `ClientDkg::finalize_first_round::<CtxDigest>`. -/
def finalize_first_round (H : List ℕ → Scalar)
    (server_message : DkgServerRound1) : Except DkgError Unit :=
  let c := H (tagServer ++ cpBytes server_message.S0 ++ cpBytes server_message.R)
  match decompress server_message.S0 with
  | none => .error .Decompression
  | some S0 =>
      let expected_R := mul_base server_message.mu + S0 * (-c)
      if server_message.R ≠ compress expected_R then .error .ProofOfKnowledge
      else .ok ()

/-- `ClientDkg::start_second_round`. -/
def start_second_round (c0 c1 : Scalar) : Scalar × DkgClientRound2 :=
  let c_client := c0 + c1
  let c_server := c0 - c1
  (c_client, { c_server := c_server })

/-- `ClientDkg::finalize_second_round`.  The two `.unwrap()` calls on the
server's compressed `S0`, `S1` panic on invalid encodings: `none`. -/
def finalize_second_round (c_client : Scalar) (C0 C1 : Point)
    (server_message_1 : DkgServerRound1) (server_message_2 : DkgServerRound2) :
    Option (Except DkgError (Scalar × Point × Point × Point)) :=
  match decompress server_message_1.S0 with
  | none => none
  | some S0 =>
      match decompress server_message_1.S1 with
      | none => none
      | some S1 =>
          let S_client := S0 + S1
          let expected_S_client := mul_base server_message_2.s_client
          if compress S_client ≠ compress expected_S_client then
            some (.error .ShareVerification)
          else
            let p_client := c_client + server_message_2.s_client
            let P_client := mul_base p_client
            let P_server := C0 - C1 + S0 - S1
            let P_joint := P_client + P_server
            some (.ok (p_client, P_client, P_server, P_joint))

end ClientDkg

namespace ServerDkg

/-- `ServerDkg::start_first_round::<CtxDigest>`; the `OsRng` draws
`s0, s1, k` are passed in explicitly. -/
def start_first_round (H : List ℕ → Scalar) (s0 s1 k : Scalar) :
    Scalar × Scalar × Point × Point × DkgServerRound1 :=
  let S0 := mul_base s0
  let S1 := mul_base s1
  let R := mul_base k
  let c := H (tagServer ++ cpBytes (compress S0) ++ cpBytes (compress R))
  let mu := k + s0 * c
  (s0, s1, S0, S1,
    { S0 := compress S0, S1 := compress S1, R := compress R, mu := mu })

/-- `ServerDkg::finalize_first_round::<CtxDigest>`.  Unlike the client
side, the decompression of `C0` is an `.unwrap()`: panic on `none`. -/
def finalize_first_round (H : List ℕ → Scalar)
    (client_message : DkgClientRound1) : Option (Except DkgError Unit) :=
  let c := H (tagClient ++ cpBytes client_message.C0 ++ cpBytes client_message.R)
  match decompress client_message.C0 with
  | none => none
  | some C0 =>
      let expected_R := mul_base client_message.mu + C0 * (-c)
      if client_message.R ≠ compress expected_R then
        some (.error .ProofOfKnowledge)
      else some (.ok ())

/-- `ServerDkg::start_second_round`. -/
def start_second_round (s0 s1 : Scalar) : Scalar × DkgServerRound2 :=
  let s_client := s0 + s1
  let s_server := s0 - s1
  (s_server, { s_client := s_client })

/-- `ServerDkg::finalize_second_round`.  The two `.unwrap()` calls on the
client's compressed `C0`, `C1` panic on invalid encodings: `none`. -/
def finalize_second_round (s_server : Scalar) (S0 S1 : Point)
    (client_message_1 : DkgClientRound1) (client_message_2 : DkgClientRound2) :
    Option (Except DkgError (Scalar × Point × Point × Point)) :=
  match decompress client_message_1.C0 with
  | none => none
  | some C0 =>
      match decompress client_message_1.C1 with
      | none => none
      | some C1 =>
          let C_server := C0 - C1
          let expected_C_server := mul_base client_message_2.c_server
          if compress C_server ≠ compress expected_C_server then
            some (.error .ShareVerification)
          else
            let p_server := client_message_2.c_server + s_server
            let P_server := mul_base p_server
            let P_client := C0 + C1 + S0 + S1
            let P_joint := P_client + P_server
            some (.ok (p_server, P_server, P_client, P_joint))

end ServerDkg

/-- `frost::sign::client::SignClientRound1`. -/
structure SignClientRound1 : Type where
  D_client : CompressedPoint
  E_client : CompressedPoint
  deriving DecidableEq, Repr

/-- `frost::sign::client::SignClientRound2`. -/
structure SignClientRound2 : Type where
  z_client : Scalar
  deriving DecidableEq, Repr

/-- `frost::sign::server::SignServerRound1`. -/
structure SignServerRound1 : Type where
  D_server : CompressedPoint
  E_server : CompressedPoint
  deriving DecidableEq, Repr

/-- `frost::sign::server::SignServerRound2`. -/
structure SignServerRound2 : Type where
  z_server : Scalar
  deriving DecidableEq, Repr

/-- The client binding factor: `Scalar::from_hash` of
`b"client" ‖ message ‖ D_client ‖ E_client` (computed identically in
`second_round` and `combine_sigs` of both parties). -/
def rho_client_of (H : List ℕ → Scalar) (message : List ℕ)
    (client_message : SignClientRound1) : Scalar :=
  H (tagClient ++ message ++ cpBytes client_message.D_client ++
    cpBytes client_message.E_client)

/-- The server binding factor: `Scalar::from_hash` of
`b"server" ‖ message ‖ D_server ‖ E_server`. -/
def rho_server_of (H : List ℕ → Scalar) (message : List ℕ)
    (server_message : SignServerRound1) : Scalar :=
  H (tagServer ++ message ++ cpBytes server_message.D_server ++
    cpBytes server_message.E_server)

/-- The joint challenge: `Scalar::from_hash` of
`compress(R) ‖ message ‖ P_joint`. -/
def challenge_of (H : List ℕ → Scalar) (R : Point) (message : List ℕ)
    (P_joint : CompressedPoint) : Scalar :=
  H (cpBytes (compress R) ++ message ++ cpBytes P_joint)

namespace ClientSign

/-- `ClientSign::first_round`; the `OsRng` draws `d_client, e_client` are
passed in explicitly. -/
def first_round (d_client e_client : Scalar) :
    Scalar × Scalar × SignClientRound1 :=
  let D_client := mul_base d_client
  let E_client := mul_base e_client
  (d_client, e_client,
    { D_client := compress D_client, E_client := compress E_client })

/-- `ClientSign::second_round::<CtxDigest>`. -/
def second_round (H : List ℕ → Scalar) (p_client : Scalar)
    (P_joint : CompressedPoint) (message : List ℕ)
    (d_client e_client : Scalar) (client_message : SignClientRound1)
    (server_message : SignServerRound1) :
    Except SignError (Point × SignClientRound2) :=
  let rho_client := rho_client_of H message client_message
  let rho_server := rho_server_of H message server_message
  match decompress client_message.D_client with
  | none => .error .Decompression
  | some D_client =>
  match decompress client_message.E_client with
  | none => .error .Decompression
  | some E_client =>
  match decompress server_message.D_server with
  | none => .error .Decompression
  | some D_server =>
  match decompress server_message.E_server with
  | none => .error .Decompression
  | some E_server =>
      let R := D_client + E_client * rho_client + D_server +
        E_server * rho_server
      let c := challenge_of H R message P_joint
      let z_client := d_client + e_client * rho_client + p_client * c
      .ok (R, { z_client := z_client })

/-- `ClientSign::combine_sigs::<CtxDigest>`. -/
def combine_sigs (H : List ℕ → Scalar) (P_joint P_server : CompressedPoint)
    (message : List ℕ) (client_message_1 : SignClientRound1)
    (client_message_2 : SignClientRound2)
    (server_message_1 : SignServerRound1)
    (server_message_2 : SignServerRound2) :
    Except SignError (CompressedPoint × Scalar) :=
  let rho_client := rho_client_of H message client_message_1
  match decompress client_message_1.D_client with
  | none => .error .Decompression
  | some D_client =>
  match decompress client_message_1.E_client with
  | none => .error .Decompression
  | some E_client =>
      let R_client := D_client + E_client * rho_client
      let rho_server := rho_server_of H message server_message_1
      match decompress server_message_1.D_server with
      | none => .error .Decompression
      | some D_server =>
      match decompress server_message_1.E_server with
      | none => .error .Decompression
      | some E_server =>
          let R_server := D_server + E_server * rho_server
          let R := R_client + R_server
          let c := challenge_of H R message P_joint
          let partial_signature_1 := mul_base server_message_2.z_server
          match decompress P_server with
          | none => .error .Decompression
          | some Y_server =>
              let partial_signature_2 := R_server - Y_server * c
              if partial_signature_1 ≠ partial_signature_2 then
                .error .PartialSignatureVerification
              else
                let R_joint := compress R
                let z_joint := client_message_2.z_client +
                  server_message_2.z_server
                .ok (R_joint, z_joint)

end ClientSign

namespace ServerSign

/-- `ServerSign::first_round`; the `OsRng` draws `d_server, e_server` are
passed in explicitly. -/
def first_round (d_server e_server : Scalar) :
    Scalar × Scalar × SignServerRound1 :=
  let D_server := mul_base d_server
  let E_server := mul_base e_server
  (d_server, e_server,
    { D_server := compress D_server, E_server := compress E_server })

/-- `ServerSign::second_round::<CtxDigest>`: identical to the client's up
to the partial-signature formula, where the `p_server * c` term is
subtracted. -/
def second_round (H : List ℕ → Scalar) (p_server : Scalar)
    (P_joint : CompressedPoint) (message : List ℕ)
    (d_server e_server : Scalar) (client_message : SignClientRound1)
    (server_message : SignServerRound1) :
    Except SignError (Point × SignServerRound2) :=
  let rho_client := rho_client_of H message client_message
  let rho_server := rho_server_of H message server_message
  match decompress client_message.D_client with
  | none => .error .Decompression
  | some D_client =>
  match decompress client_message.E_client with
  | none => .error .Decompression
  | some E_client =>
  match decompress server_message.D_server with
  | none => .error .Decompression
  | some D_server =>
  match decompress server_message.E_server with
  | none => .error .Decompression
  | some E_server =>
      let R := D_client + E_client * rho_client + D_server +
        E_server * rho_server
      let c := challenge_of H R message P_joint
      let z_server := d_server + e_server * rho_server - p_server * c
      .ok (R, { z_server := z_server })

/-- `ServerSign::combine_sigs::<CtxDigest>`: verifies the client's partial
signature `z_client·B == R_client + Y_client·c` against `P_client`. -/
def combine_sigs (H : List ℕ → Scalar) (P_joint P_client : CompressedPoint)
    (message : List ℕ) (client_message_1 : SignClientRound1)
    (client_message_2 : SignClientRound2)
    (server_message_1 : SignServerRound1)
    (server_message_2 : SignServerRound2) :
    Except SignError (CompressedPoint × Scalar) :=
  let rho_client := rho_client_of H message client_message_1
  match decompress client_message_1.D_client with
  | none => .error .Decompression
  | some D_client =>
  match decompress client_message_1.E_client with
  | none => .error .Decompression
  | some E_client =>
      let R_client := D_client + E_client * rho_client
      let rho_server := rho_server_of H message server_message_1
      match decompress server_message_1.D_server with
      | none => .error .Decompression
      | some D_server =>
      match decompress server_message_1.E_server with
      | none => .error .Decompression
      | some E_server =>
          let R_server := D_server + E_server * rho_server
          let R := R_client + R_server
          let c := challenge_of H R message P_joint
          let expected_1 := mul_base client_message_2.z_client
          match decompress P_client with
          | none => .error .Decompression
          | some Y_client =>
              let expected_2 := R_client + Y_client * c
              if expected_1 ≠ expected_2 then
                .error .PartialSignatureVerification
              else
                let R_joint := compress R
                let z_joint := client_message_2.z_client +
                  server_message_2.z_server
                .ok (R_joint, z_joint)

end ServerSign

/-- The standard Ed25519 verification predicate, as stated in the
specification (§1, §4.5): `(R_joint, z_joint)` is valid for `message`
under the compressed public key `A` when `R_joint` decompresses to some
`R` and `z_joint·B = R + c·A` with
`c = H(compress(R) ‖ message ‖ compress(A))`.  This verifier is not part
of the repository; it follows the specification's words. -/
def ed25519_verify (H : List ℕ → Scalar) (A : CompressedPoint)
    (message : List ℕ) (R_joint : CompressedPoint) (z_joint : Scalar) :
    Bool :=
  match decompress R_joint, decompress A with
  | some R, some P =>
      decide (mul_base z_joint = R + challenge_of H R message A * P)
  | _, _ => false

/-- A concrete constant digest used to instantiate `CtxDigest` in closed
statements. -/
def constantDigest : List ℕ → Scalar := fun _ => 1

section BasicLemmas

lemma decompress_compress (P : Point) : decompress (compress P) = some P := rfl

lemma compress_inj {P Q : Point} : compress P = compress Q ↔ P = Q := by
  simp [compress]

end BasicLemmas

/-- C4: proof-of-knowledge completeness.  For any scalars `c0`, `c1`, `k`
(resp. `s0`, `s1`, `k`) and any digest, the R1 message produced by an
honest `start_first_round` is accepted by the peer's
`finalize_first_round`: the server returns `Ok` (no panic) on the honest
client message, and the client returns `Ok` on the honest server
message. -/
theorem frost_C4_pok_completeness (H : List ℕ → Scalar)
    (c0 c1 kc s0 s1 ks : Scalar) :
    ServerDkg.finalize_first_round H
        (ClientDkg.start_first_round H c0 c1 kc).2.2.2.2 =
      some (.ok ()) ∧
    ClientDkg.finalize_first_round H
        (ServerDkg.start_first_round H s0 s1 ks).2.2.2.2 = .ok () := by
  constructor
  · simp only [ClientDkg.start_first_round, ServerDkg.finalize_first_round,
      decompress, compress, mul_base]
    rw [if_neg]
    push_neg
    congr 1
    ring
  · simp only [ServerDkg.start_first_round, ClientDkg.finalize_first_round,
      decompress, compress, mul_base]
    rw [if_neg]
    push_neg
    congr 1
    ring

/-- C9: `finalize_first_round` on either side does not depend on the `C1`
(resp. `S1`) field of the peer's R1 message: two messages differing only
in that field yield the same result. -/
theorem frost_C9_c1_independence (H : List ℕ → Scalar)
    (S0 S1 S1' R : CompressedPoint) (mu : Scalar)
    (C0 C1 C1' R' : CompressedPoint) (mu' : Scalar) :
    ClientDkg.finalize_first_round H ⟨S0, S1, R, mu⟩ =
      ClientDkg.finalize_first_round H ⟨S0, S1', R, mu⟩ ∧
    ServerDkg.finalize_first_round H ⟨C0, C1, R', mu'⟩ =
      ServerDkg.finalize_first_round H ⟨C0, C1', R', mu'⟩ :=
  ⟨rfl, rfl⟩

/-- C5 counterexample: on a client R1 message whose `C0` is not a valid
compressed point, the Server's `finalize_first_round` does not return the
`Decompression` error — the `.unwrap()` in the source panics (modelled as
`none`). -/
theorem frost_C5_counterexample :
    ServerDkg.finalize_first_round constantDigest
        ⟨none, some 1, some 1, 1⟩ = none ∧
    ServerDkg.finalize_first_round constantDigest
        ⟨none, some 1, some 1, 1⟩ ≠ some (.error DkgError.Decompression) :=
  ⟨rfl, by simp [ServerDkg.finalize_first_round, decompress]⟩

/-- C5 amended: `finalize_first_round` recomputes the challenge `e` from
the peer's tag and the peer's compressed `(C0, R)` bytes and decompresses
`C0`.  The Client side returns `Decompression` when `S0` is invalid,
`ProofOfKnowledge` when `μ·B − e·S0 ≠ R`, and `Ok` otherwise; the Server
side panics (`.unwrap()`) when `C0` is invalid instead of returning
`Decompression`, and otherwise follows the same
`ProofOfKnowledge` / `Ok` rule. -/
theorem frost_C5_amended (H : List ℕ → Scalar) (sm : DkgServerRound1)
    (cm : DkgClientRound1) :
    (ClientDkg.finalize_first_round H sm =
      match decompress sm.S0 with
      | none => .error .Decompression
      | some S0 =>
          if sm.R ≠ compress (mul_base sm.mu -
              H (tagServer ++ cpBytes sm.S0 ++ cpBytes sm.R) * S0) then
            .error .ProofOfKnowledge
          else .ok ()) ∧
    (ServerDkg.finalize_first_round H cm =
      match decompress cm.C0 with
      | none => none
      | some C0 =>
          if cm.R ≠ compress (mul_base cm.mu -
              H (tagClient ++ cpBytes cm.C0 ++ cpBytes cm.R) * C0) then
            some (.error .ProofOfKnowledge)
          else some (.ok ())) := by
  constructor
  · obtain ⟨S0, S1, R, mu⟩ := sm
    cases S0 with
    | none => rfl
    | some s =>
        simp only [ClientDkg.finalize_first_round, decompress]
        have h : mul_base mu + s *
            -(H (tagServer ++ cpBytes (some s) ++ cpBytes R)) =
            mul_base mu -
            H (tagServer ++ cpBytes (some s) ++ cpBytes R) * s := by ring
        rw [h]
  · obtain ⟨C0, C1, R, mu⟩ := cm
    cases C0 with
    | none => rfl
    | some c =>
        simp only [ServerDkg.finalize_first_round, decompress]
        have h : mul_base mu + c *
            -(H (tagClient ++ cpBytes (some c) ++ cpBytes R)) =
            mul_base mu -
            H (tagClient ++ cpBytes (some c) ++ cpBytes R) * c := by ring
        rw [h]

instance {ε α : Type} [DecidableEq ε] [DecidableEq α] :
    DecidableEq (Except ε α) := fun x y =>
  match x, y with
  | .error a, .error b => decidable_of_iff (a = b) (by simp)
  | .error _, .ok _ => decidable_of_iff False (by simp)
  | .ok _, .error _ => decidable_of_iff False (by simp)
  | .ok a, .ok b => decidable_of_iff (a = b) (by simp)

/-- Evaluation of the Client's honest-run `finalize_second_round`. -/
lemma client_finalize_r2_honest (H : List ℕ → Scalar)
    (c0 c1 s0 s1 ks : Scalar) :
    ClientDkg.finalize_second_round (ClientDkg.start_second_round c0 c1).1
      (mul_base c0) (mul_base c1)
      (ServerDkg.start_first_round H s0 s1 ks).2.2.2.2
      (ServerDkg.start_second_round s0 s1).2 =
    some (.ok (c0 + c1 + (s0 + s1), mul_base (c0 + c1 + (s0 + s1)),
      mul_base c0 - mul_base c1 + mul_base s0 - mul_base s1,
      mul_base (c0 + c1 + (s0 + s1)) +
        (mul_base c0 - mul_base c1 + mul_base s0 - mul_base s1))) := by
  simp only [ClientDkg.finalize_second_round, ClientDkg.start_second_round,
    ServerDkg.start_first_round, ServerDkg.start_second_round, decompress,
    compress, mul_base]
  rw [if_neg]
  push_neg
  rfl

/-- Evaluation of the Server's honest-run `finalize_second_round`. -/
lemma server_finalize_r2_honest (H : List ℕ → Scalar)
    (c0 c1 kc s0 s1 : Scalar) :
    ServerDkg.finalize_second_round (ServerDkg.start_second_round s0 s1).1
      (mul_base s0) (mul_base s1)
      (ClientDkg.start_first_round H c0 c1 kc).2.2.2.2
      (ClientDkg.start_second_round c0 c1).2 =
    some (.ok (c0 - c1 + (s0 - s1), mul_base (c0 - c1 + (s0 - s1)),
      mul_base c0 + mul_base c1 + mul_base s0 + mul_base s1,
      mul_base c0 + mul_base c1 + mul_base s0 + mul_base s1 +
        mul_base (c0 - c1 + (s0 - s1)))) := by
  simp only [ServerDkg.finalize_second_round, ServerDkg.start_second_round,
    ClientDkg.start_first_round, ClientDkg.start_second_round, decompress,
    compress, mul_base]
  rw [if_neg]
  push_neg
  rfl

/-- C2: for all scalars `c0, c1, s0, s1` (and PoK nonces `kc, ks`), with
honest R1 and R2 messages both parties' `finalize_second_round` succeed,
their compressed `P_client`, `P_server`, `P_joint` agree bit-for-bit, and
`p_client·B`, `p_server·B`, `(p_client + p_server)·B` compress to the
same bytes as `P_client`, `P_server`, `P_joint`. -/
theorem frost_C2_honest_dkg (H : List ℕ → Scalar)
    (c0 c1 kc s0 s1 ks : Scalar) :
    ∃ (p_client : Scalar) (P_client P_server P_joint : Point)
      (p_server : Scalar) (P_server' P_client' P_joint' : Point),
      ClientDkg.finalize_second_round (ClientDkg.start_second_round c0 c1).1
          (mul_base c0) (mul_base c1)
          (ServerDkg.start_first_round H s0 s1 ks).2.2.2.2
          (ServerDkg.start_second_round s0 s1).2 =
        some (.ok (p_client, P_client, P_server, P_joint)) ∧
      ServerDkg.finalize_second_round (ServerDkg.start_second_round s0 s1).1
          (mul_base s0) (mul_base s1)
          (ClientDkg.start_first_round H c0 c1 kc).2.2.2.2
          (ClientDkg.start_second_round c0 c1).2 =
        some (.ok (p_server, P_server', P_client', P_joint')) ∧
      compress P_client = compress P_client' ∧
      compress P_server = compress P_server' ∧
      compress P_joint = compress P_joint' ∧
      compress (mul_base p_client) = compress P_client ∧
      compress (mul_base p_server) = compress P_server' ∧
      compress (mul_base (p_client + p_server)) = compress P_joint := by
  refine ⟨_, _, _, _, _, _, _, _,
    client_finalize_r2_honest H c0 c1 s0 s1 ks,
    server_finalize_r2_honest H c0 c1 kc s0 s1, ?_, ?_, ?_, ?_, ?_, ?_⟩ <;>
    rw [compress_inj] <;> simp only [mul_base] <;> ring

/-- C6: with the peer's R1 commitments valid compressed points,
`finalize_second_round` returns `ShareVerification` exactly when the
share check fails — `compress (S0 + S1) ≠ compress (s_client·B)` on the
Client side, `compress (C0 − C1) ≠ compress (c_server·B)` on the Server
side — and otherwise returns the private share `p`, the public share
`p·B`, the peer's reconstructed public share, and `P_joint` as the sum,
per the data-model formulas. -/
theorem frost_C6_share_verification (c_client : Scalar) (C0 C1 : Point)
    (sm1 : DkgServerRound1) (sm2 : DkgServerRound2)
    (s_server : Scalar) (S0v S1v : Point)
    (cm1 : DkgClientRound1) (cm2 : DkgClientRound2)
    (S0 S1 : Point) (hS0 : decompress sm1.S0 = some S0)
    (hS1 : decompress sm1.S1 = some S1)
    (C0p C1p : Point) (hC0 : decompress cm1.C0 = some C0p)
    (hC1 : decompress cm1.C1 = some C1p) :
    (ClientDkg.finalize_second_round c_client C0 C1 sm1 sm2 =
      if compress (S0 + S1) ≠ compress (mul_base sm2.s_client) then
        some (.error .ShareVerification)
      else
        some (.ok (c_client + sm2.s_client,
          mul_base (c_client + sm2.s_client), C0 - C1 + S0 - S1,
          mul_base (c_client + sm2.s_client) + (C0 - C1 + S0 - S1)))) ∧
    (ServerDkg.finalize_second_round s_server S0v S1v cm1 cm2 =
      if compress (C0p - C1p) ≠ compress (mul_base cm2.c_server) then
        some (.error .ShareVerification)
      else
        some (.ok (cm2.c_server + s_server,
          mul_base (cm2.c_server + s_server), C0p + C1p + S0v + S1v,
          C0p + C1p + S0v + S1v + mul_base (cm2.c_server + s_server)))) := by
  constructor
  · simp only [ClientDkg.finalize_second_round, hS0, hS1]
  · simp only [ServerDkg.finalize_second_round, hC0, hC1]

/-- Witness for C6: both characterizations evaluated at concrete valid
inputs whose share checks pass. -/
theorem frost_C6_witness :
    ClientDkg.finalize_second_round 1 1 0 ⟨some 1, some 1, some 1, 0⟩ ⟨2⟩ =
      some (.ok (3, 3, 1, 4)) ∧
    ServerDkg.finalize_second_round 1 1 1 ⟨some 2, some 1, some 1, 0⟩ ⟨1⟩ =
      some (.ok (2, 2, 5, 7)) := by
  have h := frost_C6_share_verification 1 1 0 ⟨some 1, some 1, some 1, 0⟩
    ⟨2⟩ 1 1 1 ⟨some 2, some 1, some 1, 0⟩ ⟨1⟩ 1 1 rfl rfl 2 1 rfl rfl
  constructor
  · rw [h.1, if_neg]
    · simp only [Option.some.injEq, Except.ok.injEq, Prod.mk.injEq, mul_base]
      exact ⟨by decide, by decide, by decide, by decide⟩
    · decide
  · rw [h.2, if_neg]
    · simp only [Option.some.injEq, Except.ok.injEq, Prod.mk.injEq, mul_base]
      exact ⟨by decide, by decide, by decide, by decide⟩
    · decide

/-- C7 counterexample: on a server R1 message whose `S0` is not a valid
compressed point, the Client's `finalize_second_round` does not return
the `Decompression` error — the `.unwrap()` in the source panics
(modelled as `none`). -/
theorem frost_C7_counterexample :
    ClientDkg.finalize_second_round 1 1 1 ⟨none, some 1, some 1, 1⟩ ⟨1⟩ =
      none ∧
    ClientDkg.finalize_second_round 1 1 1 ⟨none, some 1, some 1, 1⟩ ⟨1⟩ ≠
      some (.error DkgError.Decompression) :=
  ⟨rfl, by simp [ClientDkg.finalize_second_round, decompress]⟩

/-- C7 amended: the Client's Round 1 finalize surfaces `Decompression` on
an invalid `S0`; but the Client's Round 2 finalize, exactly like the
Server's Round 2 finalize, does not propagate a decompression failure of
a peer point as an error — it panics (`.unwrap()`, modelled `none`). -/
theorem frost_C7_amended (H : List ℕ → Scalar) :
    (∀ sm : DkgServerRound1, sm.S0 = none →
      ClientDkg.finalize_first_round H sm = .error .Decompression) ∧
    (∀ (c_client : Scalar) (C0 C1 : Point) (sm : DkgServerRound1)
        (sm2 : DkgServerRound2), sm.S0 = none ∨ sm.S1 = none →
      ClientDkg.finalize_second_round c_client C0 C1 sm sm2 = none) ∧
    (∀ (s_server : Scalar) (S0 S1 : Point) (cm : DkgClientRound1)
        (cm2 : DkgClientRound2), cm.C0 = none ∨ cm.C1 = none →
      ServerDkg.finalize_second_round s_server S0 S1 cm cm2 = none) := by
  refine ⟨?_, ?_, ?_⟩
  · rintro ⟨S0, S1, R, mu⟩ h
    subst h
    rfl
  · rintro c_client C0 C1 ⟨S0, S1, R, mu⟩ sm2 (h | h) <;> subst h
    · rfl
    · cases S0 <;> rfl
  · rintro s_server S0 S1 ⟨c0, c1, R, mu⟩ cm2 (h | h) <;> subst h
    · rfl
    · cases c0 <;> rfl

/-- Witness for C7: the three panic / error behaviours at a concrete
invalid message. -/
theorem frost_C7_witness :
    ClientDkg.finalize_first_round constantDigest ⟨none, some 1, some 1, 1⟩ =
      .error .Decompression ∧
    ClientDkg.finalize_second_round 1 1 1 ⟨some 1, none, some 1, 1⟩ ⟨1⟩ =
      none ∧
    ServerDkg.finalize_second_round 1 1 1 ⟨some 1, none, some 1, 1⟩ ⟨1⟩ =
      none := by
  obtain ⟨h1, h2, h3⟩ := frost_C7_amended constantDigest
  exact ⟨h1 ⟨none, some 1, some 1, 1⟩ rfl,
    h2 1 1 1 ⟨some 1, none, some 1, 1⟩ ⟨1⟩ (Or.inr rfl),
    h3 1 1 1 ⟨some 1, none, some 1, 1⟩ ⟨1⟩ (Or.inr rfl)⟩

/-- Evaluation of the Client's `combine_sigs` when all compressed points
decode. -/
lemma client_combine_eval (H : List ℕ → Scalar)
    (P_joint P_server : CompressedPoint) (message : List ℕ)
    (cm1 : SignClientRound1) (cm2 : SignClientRound2)
    (sm1 : SignServerRound1) (sm2 : SignServerRound2)
    (Dc Ec Ds Es Y : Point)
    (hDc : decompress cm1.D_client = some Dc)
    (hEc : decompress cm1.E_client = some Ec)
    (hDs : decompress sm1.D_server = some Ds)
    (hEs : decompress sm1.E_server = some Es)
    (hY : decompress P_server = some Y) :
    ClientSign.combine_sigs H P_joint P_server message cm1 cm2 sm1 sm2 =
      if mul_base sm2.z_server ≠
          Ds + Es * rho_server_of H message sm1 -
            Y * challenge_of H
              (Dc + Ec * rho_client_of H message cm1 +
                (Ds + Es * rho_server_of H message sm1)) message P_joint then
        .error .PartialSignatureVerification
      else
        .ok (compress (Dc + Ec * rho_client_of H message cm1 +
            (Ds + Es * rho_server_of H message sm1)),
          cm2.z_client + sm2.z_server) := by
  simp only [ClientSign.combine_sigs, hDc, hEc, hDs, hEs, hY]

/-- Evaluation of the Server's `combine_sigs` when all compressed points
decode. -/
lemma server_combine_eval (H : List ℕ → Scalar)
    (P_joint P_client : CompressedPoint) (message : List ℕ)
    (cm1 : SignClientRound1) (cm2 : SignClientRound2)
    (sm1 : SignServerRound1) (sm2 : SignServerRound2)
    (Dc Ec Ds Es Y : Point)
    (hDc : decompress cm1.D_client = some Dc)
    (hEc : decompress cm1.E_client = some Ec)
    (hDs : decompress sm1.D_server = some Ds)
    (hEs : decompress sm1.E_server = some Es)
    (hY : decompress P_client = some Y) :
    ServerSign.combine_sigs H P_joint P_client message cm1 cm2 sm1 sm2 =
      if mul_base cm2.z_client ≠
          Dc + Ec * rho_client_of H message cm1 +
            Y * challenge_of H
              (Dc + Ec * rho_client_of H message cm1 +
                (Ds + Es * rho_server_of H message sm1)) message P_joint then
        .error .PartialSignatureVerification
      else
        .ok (compress (Dc + Ec * rho_client_of H message cm1 +
            (Ds + Es * rho_server_of H message sm1)),
          cm2.z_client + sm2.z_server) := by
  simp only [ServerSign.combine_sigs, hDc, hEc, hDs, hEs, hY]

/-- C8: whenever `second_round` succeeds, the emitted partial signatures
follow the asymmetric formulas — the Client's scalar is
`d_client + e_client·ρ_client + p_client·c`, the Server's is
`d_server + e_server·ρ_server − p_server·c`, with the same binding
factors and joint challenge but the `p·c` term added on the Client side
and subtracted on the Server side. -/
theorem frost_C8_partial_signature_formulas (H : List ℕ → Scalar)
    (p_client p_server : Scalar) (P_joint : CompressedPoint)
    (message : List ℕ) (d_client e_client d_server e_server : Scalar)
    (cm : SignClientRound1) (sm : SignServerRound1)
    (Dc Ec Ds Es : Point) (rc rs R c : Scalar)
    (hDc : decompress cm.D_client = some Dc)
    (hEc : decompress cm.E_client = some Ec)
    (hDs : decompress sm.D_server = some Ds)
    (hEs : decompress sm.E_server = some Es)
    (hrc : rc = rho_client_of H message cm)
    (hrs : rs = rho_server_of H message sm)
    (hR : R = Dc + Ec * rc + Ds + Es * rs)
    (hc : c = challenge_of H R message P_joint) :
    ClientSign.second_round H p_client P_joint message d_client e_client
        cm sm = .ok (R, ⟨d_client + e_client * rc + p_client * c⟩) ∧
    ServerSign.second_round H p_server P_joint message d_server e_server
        cm sm = .ok (R, ⟨d_server + e_server * rs - p_server * c⟩) := by
  subst hrc hrs hR hc
  constructor
  · simp only [ClientSign.second_round, hDc, hEc, hDs, hEs]
  · simp only [ServerSign.second_round, hDc, hEc, hDs, hEs]

/-- Witness for C8: both second rounds evaluated at a concrete input with
valid nonce commitments. -/
theorem frost_C8_witness :
    ClientSign.second_round constantDigest 1 (some 1) [] 1 0
        ⟨some 1, some 0⟩ ⟨some 0, some 0⟩ = .ok (1, ⟨2⟩) ∧
    ServerSign.second_round constantDigest 2 (some 1) [] 0 0
        ⟨some 1, some 0⟩ ⟨some 0, some 0⟩ = .ok (1, ⟨-2⟩) := by
  have h := frost_C8_partial_signature_formulas constantDigest 1 2 (some 1)
    [] 1 0 0 0 ⟨some 1, some 0⟩ ⟨some 0, some 0⟩ 1 0 0 0 1 1 1 1
    rfl rfl rfl rfl rfl rfl (by decide) rfl
  refine ⟨h.1.trans ?_, h.2.trans ?_⟩ <;> decide

/-- C10: when the Client's `second_round` returns `Ok((R, _))` and the
Client's `combine_sigs` on the same message and R1 messages returns
`Ok((R_joint, _))`, the point `R` compresses exactly to `R_joint`. -/
theorem frost_C10_R_agreement (H : List ℕ → Scalar) (p_client : Scalar)
    (P_joint P_server : CompressedPoint) (message : List ℕ)
    (d_client e_client : Scalar) (cm1 : SignClientRound1)
    (cm2 : SignClientRound2) (sm1 : SignServerRound1)
    (sm2 : SignServerRound2) (R : Point) (z2 : SignClientRound2)
    (R_joint : CompressedPoint) (z_joint : Scalar)
    (h2 : ClientSign.second_round H p_client P_joint message d_client
      e_client cm1 sm1 = .ok (R, z2))
    (hcmb : ClientSign.combine_sigs H P_joint P_server message cm1 cm2
      sm1 sm2 = .ok (R_joint, z_joint)) :
    compress R = R_joint := by
  rcases hDc : decompress cm1.D_client with _ | Dc
  · simp only [ClientSign.second_round, hDc] at h2
    exact Except.noConfusion h2
  rcases hEc : decompress cm1.E_client with _ | Ec
  · simp only [ClientSign.second_round, hDc, hEc] at h2
    exact Except.noConfusion h2
  rcases hDs : decompress sm1.D_server with _ | Ds
  · simp only [ClientSign.second_round, hDc, hEc, hDs] at h2
    exact Except.noConfusion h2
  rcases hEs : decompress sm1.E_server with _ | Es
  · simp only [ClientSign.second_round, hDc, hEc, hDs, hEs] at h2
    exact Except.noConfusion h2
  rcases hY : decompress P_server with _ | Y
  · simp only [ClientSign.combine_sigs, hDc, hEc, hDs, hEs, hY] at hcmb
    exact Except.noConfusion hcmb
  simp only [ClientSign.second_round, hDc, hEc, hDs, hEs,
    Except.ok.injEq, Prod.mk.injEq] at h2
  rw [client_combine_eval H P_joint P_server message cm1 cm2 sm1 sm2
    Dc Ec Ds Es Y hDc hEc hDs hEs hY] at hcmb
  rcases Classical.em (mul_base sm2.z_server ≠
      Ds + Es * rho_server_of H message sm1 -
        Y * challenge_of H (Dc + Ec * rho_client_of H message cm1 +
          (Ds + Es * rho_server_of H message sm1)) message P_joint) with
    hv | hv
  · rw [if_pos hv] at hcmb
    exact Except.noConfusion hcmb
  · rw [if_neg hv] at hcmb
    simp only [Except.ok.injEq, Prod.mk.injEq] at hcmb
    rw [← h2.1, ← hcmb.1, compress_inj]
    ring

/-- Witness for C10: a successful concrete `second_round` / `combine`
pair with matching `R`. -/
theorem frost_C10_witness : compress (2 : Point) = some 2 :=
  frost_C10_R_agreement constantDigest 1 (some 1) (some 0) [] 0 0
    ⟨some 1, some 0⟩ ⟨1⟩ ⟨some 1, some 0⟩ ⟨1⟩ 2 ⟨1⟩ (some 2) 2
    (by decide) (by decide)

/-- C3: after an honest DKG and honest signing rounds over any message
`m`, both the Client's and the Server's `combine_sigs` (each run with its
own party's DKG outputs) succeed and return the identical pair
`(R_joint, z_joint)`. -/
theorem frost_C3_combine_agreement (H : List ℕ → Scalar)
    (c0 c1 kc s0 s1 ks dc ec ds es : Scalar) (m : List ℕ)
    (pc : Scalar) (Pc Ps Pj : Point) (ps : Scalar) (Ps2 Pc2 Pj2 : Point)
    (Rc Rs : Point) (cm2 : SignClientRound2) (sm2 : SignServerRound2)
    (hcf : ClientDkg.finalize_second_round
      (ClientDkg.start_second_round c0 c1).1 (mul_base c0) (mul_base c1)
      (ServerDkg.start_first_round H s0 s1 ks).2.2.2.2
      (ServerDkg.start_second_round s0 s1).2 = some (.ok (pc, Pc, Ps, Pj)))
    (hsf : ServerDkg.finalize_second_round
      (ServerDkg.start_second_round s0 s1).1 (mul_base s0) (mul_base s1)
      (ClientDkg.start_first_round H c0 c1 kc).2.2.2.2
      (ClientDkg.start_second_round c0 c1).2 =
      some (.ok (ps, Ps2, Pc2, Pj2)))
    (h2c : ClientSign.second_round H pc (compress Pj) m dc ec
      (ClientSign.first_round dc ec).2.2 (ServerSign.first_round ds es).2.2 =
      .ok (Rc, cm2))
    (h2s : ServerSign.second_round H ps (compress Pj2) m ds es
      (ClientSign.first_round dc ec).2.2 (ServerSign.first_round ds es).2.2 =
      .ok (Rs, sm2)) :
    ∃ (R_joint : CompressedPoint) (z_joint : Scalar),
      ClientSign.combine_sigs H (compress Pj) (compress Ps) m
        (ClientSign.first_round dc ec).2.2 cm2
        (ServerSign.first_round ds es).2.2 sm2 = .ok (R_joint, z_joint) ∧
      ServerSign.combine_sigs H (compress Pj2) (compress Pc2) m
        (ClientSign.first_round dc ec).2.2 cm2
        (ServerSign.first_round ds es).2.2 sm2 = .ok (R_joint, z_joint) := by
  rw [client_finalize_r2_honest] at hcf
  rw [server_finalize_r2_honest] at hsf
  simp only [Option.some.injEq, Except.ok.injEq, Prod.mk.injEq] at hcf hsf
  obtain ⟨hpc, hPc, hPs, hPj⟩ := hcf
  obtain ⟨hps, hPs2, hPc2, hPj2⟩ := hsf
  have hPjj : Pj2 = Pj := by
    rw [← hPj2, ← hPj]
    simp only [mul_base]
    ring
  have hPss : Ps = ps := by
    rw [← hPs, ← hps]
    simp only [mul_base]
    ring
  have hPcc : Pc2 = pc := by
    rw [← hPc2, ← hpc]
    simp only [mul_base]
    ring
  rw [hPjj] at h2s ⊢
  simp only [ClientSign.second_round, ServerSign.second_round,
    ClientSign.first_round, ServerSign.first_round, decompress, compress,
    mul_base, Except.ok.injEq, Prod.mk.injEq] at h2c h2s
  obtain ⟨hRc, hcm2⟩ := h2c
  obtain ⟨hRs, hsm2⟩ := h2s
  subst hcm2
  subst hsm2
  simp only [ClientSign.first_round, ServerSign.first_round, compress,
    mul_base]
  have hshape : dc + ec * rho_client_of H m ⟨some dc, some ec⟩ + ds +
      es * rho_server_of H m ⟨some ds, some es⟩ =
      dc + ec * rho_client_of H m ⟨some dc, some ec⟩ +
        (ds + es * rho_server_of H m ⟨some ds, some es⟩) := by ring
  rw [hshape]
  exact ⟨_, _, by
    simp only [ClientSign.combine_sigs, decompress, compress, mul_base]
    rw [if_neg]
    push_neg
    rw [hPss], by
    simp only [ServerSign.combine_sigs, decompress, compress, mul_base]
    rw [if_neg]
    push_neg
    rw [hPcc]⟩

/-- Witness for C3: the agreement at a concrete honest run (`c0 = 1`,
all other scalars and nonces zero, empty message, constant digest). -/
theorem frost_C3_witness :
    ∃ (R_joint : CompressedPoint) (z_joint : Scalar),
      ClientSign.combine_sigs constantDigest (compress 2) (compress 1) []
        (ClientSign.first_round 0 0).2.2 ⟨1⟩
        (ServerSign.first_round 0 0).2.2 ⟨-1⟩ = .ok (R_joint, z_joint) ∧
      ServerSign.combine_sigs constantDigest (compress 2) (compress 1) []
        (ClientSign.first_round 0 0).2.2 ⟨1⟩
        (ServerSign.first_round 0 0).2.2 ⟨-1⟩ = .ok (R_joint, z_joint) :=
  frost_C3_combine_agreement constantDigest 1 0 0 0 0 0 0 0 0 0 []
    1 1 1 2 1 1 1 2 0 0 ⟨1⟩ ⟨-1⟩
    (by decide) (by decide) (by decide) (by decide)

/-- C1 counterexample: a complete honest run — DKG with
`c0 = 1, c1 = s0 = s1 = 0`, signing with all nonces zero over the empty
message, digest constantly `1` — in which `combine` succeeds but its
output `(R_joint, z_joint) = (compress 0, 0)` is not a valid Ed25519
signature on the message under `P_joint = 2·B`:
`z_joint·B = 0 ≠ 0 + c·P_joint = 2·B`. -/
theorem frost_C1_counterexample :
    ClientDkg.finalize_second_round (ClientDkg.start_second_round 1 0).1
        (mul_base 1) (mul_base 0)
        (ServerDkg.start_first_round constantDigest 0 0 0).2.2.2.2
        (ServerDkg.start_second_round 0 0).2 = some (.ok (1, 1, 1, 2)) ∧
    ServerDkg.finalize_second_round (ServerDkg.start_second_round 0 0).1
        (mul_base 0) (mul_base 0)
        (ClientDkg.start_first_round constantDigest 1 0 0).2.2.2.2
        (ClientDkg.start_second_round 1 0).2 = some (.ok (1, 1, 1, 2)) ∧
    ClientSign.second_round constantDigest 1 (compress 2) [] 0 0
        (ClientSign.first_round 0 0).2.2 (ServerSign.first_round 0 0).2.2 =
      .ok (0, ⟨1⟩) ∧
    ServerSign.second_round constantDigest 1 (compress 2) [] 0 0
        (ClientSign.first_round 0 0).2.2 (ServerSign.first_round 0 0).2.2 =
      .ok (0, ⟨-1⟩) ∧
    ClientSign.combine_sigs constantDigest (compress 2) (compress 1) []
        (ClientSign.first_round 0 0).2.2 ⟨1⟩
        (ServerSign.first_round 0 0).2.2 ⟨-1⟩ = .ok (some 0, 0) ∧
    ed25519_verify constantDigest (compress 2) [] (some 0) 0 = false :=
  ⟨by decide, by decide, by decide, by decide, by decide, by decide⟩

/-- C1 amended: for every honest full run, `combine` succeeds and its
output `(R_joint, z_joint)` satisfies
`z_joint·B = R + c·(P_client − P_server)` — with `R` decompressed from
`R_joint` and `c = H(compress(R) ‖ m ‖ compress(P_joint))` — i.e. it
verifies under the key `P_client − P_server` rather than under
`P_joint`. -/
theorem frost_C1_amended (H : List ℕ → Scalar)
    (c0 c1 kc s0 s1 ks dc ec ds es : Scalar) (m : List ℕ)
    (pc : Scalar) (Pc Ps Pj : Point) (ps : Scalar) (Ps2 Pc2 Pj2 : Point)
    (Rc Rs : Point) (cm2 : SignClientRound2) (sm2 : SignServerRound2)
    (hcf : ClientDkg.finalize_second_round
      (ClientDkg.start_second_round c0 c1).1 (mul_base c0) (mul_base c1)
      (ServerDkg.start_first_round H s0 s1 ks).2.2.2.2
      (ServerDkg.start_second_round s0 s1).2 = some (.ok (pc, Pc, Ps, Pj)))
    (hsf : ServerDkg.finalize_second_round
      (ServerDkg.start_second_round s0 s1).1 (mul_base s0) (mul_base s1)
      (ClientDkg.start_first_round H c0 c1 kc).2.2.2.2
      (ClientDkg.start_second_round c0 c1).2 =
      some (.ok (ps, Ps2, Pc2, Pj2)))
    (h2c : ClientSign.second_round H pc (compress Pj) m dc ec
      (ClientSign.first_round dc ec).2.2 (ServerSign.first_round ds es).2.2 =
      .ok (Rc, cm2))
    (h2s : ServerSign.second_round H ps (compress Pj2) m ds es
      (ClientSign.first_round dc ec).2.2 (ServerSign.first_round ds es).2.2 =
      .ok (Rs, sm2)) :
    ∃ (R_joint : CompressedPoint) (z_joint : Scalar) (R : Point),
      ClientSign.combine_sigs H (compress Pj) (compress Ps) m
        (ClientSign.first_round dc ec).2.2 cm2
        (ServerSign.first_round ds es).2.2 sm2 = .ok (R_joint, z_joint) ∧
      decompress R_joint = some R ∧
      mul_base z_joint = R + challenge_of H R m (compress Pj) * (Pc - Ps) := by
  rw [client_finalize_r2_honest] at hcf
  rw [server_finalize_r2_honest] at hsf
  simp only [Option.some.injEq, Except.ok.injEq, Prod.mk.injEq] at hcf hsf
  obtain ⟨hpc, hPc, hPs, hPj⟩ := hcf
  obtain ⟨hps, hPs2, hPc2, hPj2⟩ := hsf
  have hPjj : Pj2 = Pj := by
    rw [← hPj2, ← hPj]
    simp only [mul_base]
    ring
  have hPss : Ps = ps := by
    rw [← hPs, ← hps]
    simp only [mul_base]
    ring
  rw [hPjj] at h2s
  simp only [ClientSign.second_round, ServerSign.second_round,
    ClientSign.first_round, ServerSign.first_round, decompress, compress,
    mul_base, Except.ok.injEq, Prod.mk.injEq] at h2c h2s
  obtain ⟨hRc, hcm2⟩ := h2c
  obtain ⟨hRs, hsm2⟩ := h2s
  subst hcm2
  subst hsm2
  simp only [ClientSign.first_round, ServerSign.first_round, compress,
    mul_base]
  set rhoC := rho_client_of H m (⟨some dc, some ec⟩ : SignClientRound1)
    with hrhoC
  set rhoS := rho_server_of H m (⟨some ds, some es⟩ : SignServerRound1)
    with hrhoS
  have hshape : dc + ec * rhoC + ds + es * rhoS =
      dc + ec * rhoC + (ds + es * rhoS) := by ring
  rw [hshape]
  set cJ := challenge_of H (dc + ec * rhoC + (ds + es * rhoS)) m (some Pj)
    with hcJ
  refine ⟨some (dc + ec * rhoC + (ds + es * rhoS)),
    dc + ec * rhoC + pc * cJ + (ds + es * rhoS - ps * cJ),
    dc + ec * rhoC + (ds + es * rhoS), ?_, ?_, ?_⟩
  · simp only [ClientSign.combine_sigs, decompress, compress, mul_base]
    rw [← hrhoC, ← hrhoS, ← hcJ]
    rw [if_neg]
    push_neg
    rw [hPss]
  · rfl
  · rw [← hPc, ← hPs, ← hpc, ← hps]
    simp only [mul_base]
    ring

/-- Witness for the amended C1: the modified verification equation holds
at the concrete honest run of the counterexample
(`P_client − P_server = 0`, so `z_joint·B = R` there). -/
theorem frost_C1_witness :
    ∃ (R_joint : CompressedPoint) (z_joint : Scalar) (R : Point),
      ClientSign.combine_sigs constantDigest (compress 2) (compress 1) []
        (ClientSign.first_round 0 0).2.2 ⟨1⟩
        (ServerSign.first_round 0 0).2.2 ⟨-1⟩ = .ok (R_joint, z_joint) ∧
      decompress R_joint = some R ∧
      mul_base z_joint =
        R + challenge_of constantDigest R [] (compress 2) * (1 - 1) :=
  frost_C1_amended constantDigest 1 0 0 0 0 0 0 0 0 0 []
    1 1 1 2 1 1 1 2 0 0 ⟨1⟩ ⟨-1⟩
    (by decide) (by decide) (by decide) (by decide)
